import Mathlib

/-!
# Tunnel client: configuration addresses and the SSH relay

A shallow embedding of

* `src/tunnel/internal/client/config/config.go` (`Tunnel`, `ClientConfig`,
  `GetHttpTunnelAddr`, `GetTcpTunnelAddr`, `GetTunnelAddr`), and
* `src/internal/client/ssh/ssh.go` (`generateUsername`, `getSshSigner`,
  `startListenerForClient`, `tunnel`, `Shutdown`, `Start`).

Go strings are Lean strings; Go `int` values are `Int`.  Calls into the
operating system, the network and the SSH library are answered by an explicit
environment value, and everything the code does to the outside world is
recorded in a list of events: in program order for one task, and for the two
tasks of `Start` in the order that the environment fixes.
-/

namespace Portr

/-! ## Go library functions used by the sources -/

/-- Go `strings.Split(s, sep)` for a separator of one character, on the list of
characters of `s`: the pieces between the separators, in order.  As in Go the
result of splitting the empty string is the single empty piece. -/
def Split (sep : Char) : List Char → List (List Char)
  | [] => [[]]
  | c :: cs =>
    if c = sep then [] :: Split sep cs
    else
      match Split sep cs with
      | [] => [[c]]
      | piece :: rest => (c :: piece) :: rest

/-- Go `fmt.Sprint` applied to one `int`: its decimal representation. -/
def Sprint (n : Int) : String := toString n

/-! ## config.go -/

namespace config

/-- Go `constants.ConnectionType`, a string type. -/
abbrev ConnectionType := String

/-- Modelled from the spec: the constant `constants.Http` lives in the package
`internal/constants`, which is outside the given sources; the spec names the
tunnel types HTTP and TCP, and the HTTP one is taken to be the string "http".
No theorem depends on the particular value. -/
def Http : ConnectionType := "http"

/-- Go `type Tunnel struct` (config.go, lines 20-27).  The field `Type` is
spelled `Type_` here, `Type` being reserved. -/
structure Tunnel where
  Name : String
  Subdomain : String
  Port : Int
  Host : String
  Type_ : ConnectionType
  RemotePort : Int
  deriving DecidableEq, Repr

/-- Go `type ClientConfig struct` (config.go, lines 116-127).  The file ssh.go
reads the shared secret of this record under the spelling `Secretkey`. -/
structure ClientConfig where
  ServerUrl : String
  SshUrl : String
  TunnelUrl : String
  SecretKey : String
  Tunnel : Tunnel
  UseLocalHost : Bool
  Debug : Bool
  EnableRequestLogging : Bool
  HealthCheckInterval : Int
  HealthCheckMaxRetries : Int
  deriving DecidableEq, Repr

/-- Go `(t *Tunnel) GetLocalAddr` (config.go, lines 53-55). -/
def Tunnel.GetLocalAddr (t : Tunnel) : String :=
  t.Host ++ ":" ++ Sprint t.Port

/-- Go `(c *ClientConfig) GetHttpTunnelAddr` (config.go, lines 129-136). -/
def ClientConfig.GetHttpTunnelAddr (c : ClientConfig) : String :=
  let protocol := if !c.UseLocalHost then "https" else "http"
  protocol ++ "://" ++ c.Tunnel.Subdomain ++ "." ++ c.TunnelUrl

/-- Go `(c *ClientConfig) GetTcpTunnelAddr` (config.go, lines 138-141).  The
index expression `split[0]` faults when the slice is empty; a fault is the
result `none`. -/
def ClientConfig.GetTcpTunnelAddr (c : ClientConfig) : Option String :=
  let split := Split ':' c.TunnelUrl.data
  match split[0]? with
  | none => none
  | some first => some (String.mk first ++ ":" ++ Sprint c.Tunnel.RemotePort)

/-- Go `(c *ClientConfig) GetTunnelAddr` (config.go, lines 143-148). -/
def ClientConfig.GetTunnelAddr (c : ClientConfig) : Option String :=
  if c.Tunnel.Type_ = Http then some c.GetHttpTunnelAddr
  else c.GetTcpTunnelAddr

end config

/-! ## ssh.go -/

namespace ssh

open config

/-- Connections (values of Go `net.Conn`) are named by numbers. -/
abbrev ConnId := Nat

/-- The result of `ssh.ParsePrivateKey`: the signing identity, kept as the
bytes it was parsed from. -/
abbrev Signer := List Nat

/-- Go `ssh.ClientConfig` as filled in by `startListenerForClient`
(ssh.go, lines 61-67). -/
structure SshClientConfig where
  User : String
  Auth : List Signer
  InsecureIgnoreHostKey : Bool
  deriving DecidableEq, Repr

/-- What the code does to the outside world, one entry per call. -/
inductive Event
  /-- Call of `s.log.Error(msg, ...)` -/
  | logError (msg : String)
  /-- Call of `s.log.Info(msg, ...)` -/
  | logInfo (msg : String)
  /-- Call of `log.Fatal(msg)`: prints and ends the process with status 1 -/
  | logFatal (msg : String)
  /-- Call of `ssh.Dial("tcp", addr, cfg)` -/
  | sshDial (addr : String) (cfg : SshClientConfig)
  /-- Deferred call of `sshClient.Close()` -/
  | sshClose
  /-- Call of `sshClient.Listen("tcp", addr)` -/
  | listen (addr : String)
  /-- Call of `s.listener.Accept()` -/
  | accept
  /-- Call of `net.Dial("tcp", addr)` -/
  | dial (addr : String)
  /-- Call of `Close()` on a connection -/
  | connClose (c : ConnId)
  /-- Statement `go tunnel(src, dst)` -/
  | goTunnel (src dst : ConnId)
  /-- Call of `s.listener.Close()` -/
  | listenerClose
  /-- Send `done <- nil` in the background task of `Start` -/
  | doneSend
  deriving DecidableEq, Repr

/-- A remote listener (Go `net.Listener`) obtained from `sshClient.Listen`.
The flag `closed` records that the listener has been closed: `Close` was called
on it, or `Accept` reported it closed. -/
structure Listener where
  addr : String
  closed : Bool
  deriving DecidableEq, Repr

/-- Go `net.Listener.Close` on the listener of `sshClient.Listen`: the listener
is closed, and the value returned is the answer of the tunnel server to the
request to cancel the forwarding, which the environment gives (`none` is nil).
The answer does not depend on the flag: the first `Close` can fail and a
second `Close` can return nil. -/
def Listener.Close (l : Listener) (answer : Option String) : Listener × Option String :=
  ({ l with closed := true }, answer)

/-- Go `type SshClient struct` (ssh.go, lines 24-28).  A nil `listener` is
`none`.  The output of the `log` field is part of the list of events. -/
structure SshClient where
  config : ClientConfig
  listener : Option Listener
  deriving DecidableEq, Repr

/-- Go `New` (ssh.go, lines 30-36). -/
def New (config : ClientConfig) : SshClient :=
  { config := config, listener := none }

/-- What one `s.listener.Accept()` call returns. -/
inductive AcceptResult
  /-- An error saying that the listener itself is closed -/
  | closed
  /-- Any other error -/
  | failed
  /-- A new remote connection -/
  | conn (remote : ConnId)
  deriving DecidableEq, Repr

/-- One pass through the body of the accept loop, as the environment answers
it: what `Accept` returns and, when a connection was accepted, what
`net.Dial` to the local endpoint returns (`none` is an error). -/
structure Round where
  accept : AcceptResult
  dial : Option ConnId
  deriving DecidableEq, Repr

/-- The environment of one run of `Start`. -/
structure Env where
  /-- Result of `os.ReadFile` on the private key: `none` is an error -/
  readFile : Option (List Nat)
  /-- Result of `ssh.ParsePrivateKey`: `none` is an error -/
  parsePrivateKey : List Nat → Option Signer
  /-- Whether `ssh.Dial` succeeds -/
  sshDialOk : Bool
  /-- The result of `utils.GenerateRandomHttpPorts()` -/
  randomPorts : List Int
  /-- Whether the server accepts a bind on the given port -/
  listenOk : Int → Bool
  /-- The passes through the accept loop that happen before the signal -/
  rounds : List Round
  /-- Whether an interruption signal is delivered while the accept loop is
  blocked in `Accept` after these passes -/
  interrupt : Bool
  /-- The value that `s.listener.Close()` returns in the shutdown routine:
  `none` is nil -/
  closeResult : Option String
  /-- The passes through the accept loop that the background task makes after
  `Close` was called and before `Start` returns: `Close` wakes the blocked
  `Accept`, and the loop goes on while the main task finishes -/
  lateRounds : List Round
  /-- How many of the events of these late passes happen before the last log
  line of the main task; the others happen between that line and the return -/
  lateBefore : Nat

/-- Go `(s *SshClient) generateUsername` (ssh.go, lines 38-40):
`fmt.Sprintf("%s:%s", secret, subdomain)`. -/
def generateUsername (s : SshClient) : String :=
  s.config.SecretKey ++ ":" ++ s.config.Tunnel.Subdomain

/-- Go `(s *SshClient) getSshSigner` (ssh.go, lines 42-56).  The result `none`
means that `log.Fatal` ended the process. -/
def getSshSigner (env : Env) : List Event × Option Signer :=
  match env.readFile with
  | none =>
    ([.logError "failed to read ssh key", .logFatal "local setup incomplete"], none)
  | some pemBytes =>
    match env.parsePrivateKey pemBytes with
    | none =>
      ([.logError "failed to parse ssh key", .logFatal "local setup incomplete"], none)
    | some signer => ([], some signer)

/-- The `ssh.ClientConfig` literal of ssh.go, lines 61-67. -/
def sshConfig (s : SshClient) (signer : Signer) : SshClientConfig :=
  { User := generateUsername s, Auth := [signer], InsecureIgnoreHostKey := true }

/-- Go slice expression `ports[:1]` (ssh.go, line 78), for a slice whose
capacity equals its length: a run-time fault (`none`) on the empty slice. -/
def sliceToOne (ports : List Int) : Option (List Int) :=
  match ports with
  | [] => none
  | p :: _ => some [p]

/-- The `for _, port := range randomPorts` loop of ssh.go, lines 81-86: every
pass assigns the result of `Listen` to `s.listener` (nil on an error) and the
loop is left at the first success. -/
def listenLoop (listenOk : Int → Bool) :
    List Int → Option Listener → Option Listener × List Event
  | [], l => (l, [])
  | port :: rest, _ =>
    let addr := "localhost:" ++ Sprint port
    if listenOk port then (some { addr := addr, closed := false }, [.listen addr])
    else
      let r := listenLoop listenOk rest none
      (r.1, .listen addr :: r.2)

/-- One pass through the body of the `for` loop of ssh.go, lines 96-115. -/
def acceptRound (localEndpoint : String) (r : Round) : List Event :=
  match r.accept with
  | .closed => [.accept, .logError "failed to accept connection"]
  | .failed => [.accept, .logError "failed to accept connection"]
  | .conn remoteConn =>
    match r.dial with
    | none =>
      [.accept, .dial localEndpoint,
       .logError "failed to connect to local endpoint", .connClose remoteConn]
    | some localConn =>
      [.accept, .dial localEndpoint,
       .goTunnel remoteConn localConn, .goTunnel localConn remoteConn]

/-- The state of the listener after `Accept` has returned: an `Accept` that
reports the listener closed leaves it recorded as closed. -/
def Listener.afterAccept (l : Listener) (a : AcceptResult) : Listener :=
  match a with
  | .closed => { l with closed := true }
  | _ => l

/-- The `for` loop of ssh.go, lines 96-115, run over the given passes.  The
loop has no `break` and no `return`: after the last given pass it is blocked in
the next `Accept`. -/
def acceptLoop (localEndpoint : String) : List Round → Listener → Listener × List Event
  | [], l => (l, [])
  | r :: rest, l =>
    let out := acceptLoop localEndpoint rest (l.afterAccept r.accept)
    (out.1, acceptRound localEndpoint r ++ out.2)

/-- How far `startListenerForClient` got. -/
inductive Background
  /-- The function returned this error value (`none` is nil) -/
  | returned (err : Option String)
  /-- The process was ended by `log.Fatal` -/
  | exited
  /-- A run-time fault -/
  | faulted (msg : String)
  /-- In the accept loop, blocked in `Accept` -/
  | accepting
  deriving DecidableEq, Repr

/-- Go `(s *SshClient) startListenerForClient` (ssh.go, lines 58-116).  The
local endpoint `s.config.Tunnel.GetAddr()` is the function that config.go
declares as `GetLocalAddr`.  The two deferred `Close` calls run only when the
function is left by a return or a fault after they were registered: the only
return (line 71) precedes both, and `log.Fatal` runs no deferred call. -/
def startListenerForClient (env : Env) (s : SshClient) :
    SshClient × List Event × Background :=
  match getSshSigner env with
  | (ev0, none) => (s, ev0, .exited)
  | (ev0, some signer) =>
    let ev1 := ev0 ++ [.sshDial s.config.SshUrl (sshConfig s signer)]
    if !env.sshDialOk then (s, ev1, .returned (some "ssh: dial failed"))
    else
      let localEndpoint := s.config.Tunnel.GetLocalAddr
      match sliceToOne env.randomPorts with
      | none => (s, ev1 ++ [.sshClose], .faulted "slice bounds out of range")
      | some randomPorts =>
        let r := listenLoop env.listenOk randomPorts s.listener
        match r.1 with
        | none =>
          ({ s with listener := none },
            ev1 ++ r.2 ++ [.logFatal "failed to listen on remote endpoint"], .exited)
        | some l =>
          let out := acceptLoop localEndpoint env.rounds l
          ({ s with listener := some out.1 },
            ev1 ++ r.2 ++ [.logInfo "listening on remote endpoint"] ++ out.2, .accepting)

/-- A connection (Go `net.Conn`) as `tunnel` sees it. -/
structure Conn where
  id : ConnId
  /-- Whether `Close` has been called on the connection -/
  closed : Bool
  /-- The data that successive `Read` calls deliver, one chunk per call; an
  empty chunk is a `Read` that returns no byte and no error -/
  pending : List (List Nat)
  /-- Whether the stream ends in a read error (otherwise in EOF) -/
  readFails : Bool
  /-- The bytes written into the connection so far, in order -/
  received : List Nat
  /-- The number of bytes that the connection still takes before `Write`
  returns an error (`none`: every `Write` succeeds); a `Write` of more bytes
  than that writes as many as are taken and returns the error -/
  writeBudget : Option Nat
  deriving DecidableEq, Repr

/-- Go `net.Conn.Close`; the error of a second close is dropped by `defer`. -/
def Conn.Close (c : Conn) : Conn := { c with closed := true }

/-- The bytes that a `Write` can still put into the connection: none once the
connection is closed (by the contract of `net.Conn`, `Write` on a closed
connection returns an error), else what `writeBudget` says. -/
def Conn.room (c : Conn) : Option Nat :=
  if c.closed then some 0 else c.writeBudget

/-- The read-write loop of Go `io.Copy`, over the chunks that `Read` still
has to deliver.  A `Read` of no byte is followed by no `Write` (the guard
`nr > 0`); a chunk that `dst` takes whole is appended to what `dst` received;
a chunk that `dst` takes in part is written up to that point, and the loop
ends in an error (the error of `Write`, or `io.ErrShortWrite` when `Write`
gave none); the loop also ends when the stream ends (in an error if
`readFails`).  The result is `dst`, the chunks not read, and whether the loop
ended in an error. -/
def copyLoop (readFails : Bool) : List (List Nat) → Conn → Conn × List (List Nat) × Bool
  | [], dst => (dst, [], readFails)
  | chunk :: rest, dst =>
    if chunk.length = 0 then copyLoop readFails rest dst
    else
      match dst.room with
      | none => copyLoop readFails rest { dst with received := dst.received ++ chunk }
      | some b =>
        if chunk.length ≤ b then
          copyLoop readFails rest
            { dst with received := dst.received ++ chunk,
                       writeBudget := some (b - chunk.length) }
        else
          ({ dst with received := dst.received ++ chunk.take b, writeBudget := some 0 },
            rest, true)

/-- Go `io.Copy(dst, src)`: the two connections afterwards and whether the copy
ended in an error.  By the contract of `net.Conn` a `Read` on a closed
connection returns an error: nothing is read from a closed `src`. -/
def Copy (dst src : Conn) : Conn × Conn × Bool :=
  if src.closed then (dst, src, true)
  else
    let r := copyLoop src.readFails src.pending dst
    (r.1, { src with pending := r.2.1 }, r.2.2)

/-- Go `tunnel` (ssh.go, lines 118-123): `io.Copy(src, dst)` writes into `src`
what it reads from `dst`; then the deferred calls run, last registered first.
The result is `src` and `dst` afterwards and the events. -/
def tunnel (src dst : Conn) : Conn × Conn × List Event :=
  let c := Copy src dst
  let dst1 := c.2.1.Close
  let src1 := c.1.Close
  (src1, dst1, [.connClose dst.id, .connClose src.id])

/-- Go `(s *SshClient) Shutdown` (ssh.go, lines 125-132), with the value
that `Close` returns.  Calling `Close` on the nil listener is a run-time fault
(`Except.error`); otherwise the result is the client, the returned error and
the events. -/
def Shutdown (closeResult : Option String) (s : SshClient) :
    Except String (SshClient × Option String × List Event) :=
  match s.listener with
  | none => .error "invalid memory address or nil pointer dereference"
  | some l =>
    let r := l.Close closeResult
    match r.2 with
    | some err => .ok ({ s with listener := some r.1 }, some err, [.listenerClose])
    | none =>
      .ok ({ s with listener := some r.1 }, none,
        [.listenerClose, .logInfo "stopping tunnel client server"])

/-- How a run of `Start` ends. -/
inductive StartExit
  /-- The function `Start` returned to its caller -/
  | returned
  /-- The process was ended by `log.Fatal` in the background task -/
  | exited
  /-- A run-time fault ended the process -/
  | panicked (msg : String)
  /-- Blocked in `<-done`: neither a signal nor an error arrived -/
  | waiting
  deriving DecidableEq, Repr

/-- A run of `Start`: the client afterwards, the events in order, the end. -/
structure StartRun where
  client : SshClient
  trace : List Event
  exit : StartExit
  deriving DecidableEq, Repr

/-- The events of the main task and of the background task in one sequence:
the first event of the main task (the call of `Close`), then `k` events of the
background task, then the other events of the main task, then the other events
of the background task. -/
def interleave (main late : List Event) (k : Nat) : List Event :=
  main.take 1 ++ late.take k ++ main.drop 1 ++ late.drop k

/-- The part of `Start` after `<-done` (ssh.go, lines 146-150), entered with
the events so far; `late` are the events of the background task from the call
of `Close` to the return of `Start`, of which `k` precede the last log line of
the main task. -/
def shutdownPhase (closeResult : Option String) (late : List Event) (k : Nat)
    (s : SshClient) (ev : List Event) : StartRun :=
  match Shutdown closeResult s with
  | .error msg => { client := s, trace := ev, exit := .panicked msg }
  | .ok (s1, some _, ev1) =>
    { client := s1,
      trace := ev ++ interleave (ev1 ++ [.logError "failed to stop tunnel client"]) late k,
      exit := .returned }
  | .ok (s1, none, ev1) =>
    { client := s1, trace := ev ++ interleave ev1 late k, exit := .returned }

/-- The events of the passes that the accept loop makes after `Close` was
called on the listener of the client. -/
def lateEvents (env : Env) (s : SshClient) : List Event :=
  match s.listener with
  | none => []
  | some l =>
    (acceptLoop s.config.Tunnel.GetLocalAddr env.lateRounds { l with closed := true }).2

/-- Go `(s *SshClient) Start` (ssh.go, lines 134-151): the background task
runs `startListenerForClient` and sends on `done` when that returns an error;
the main task waits on `done`, which also receives the interruption signals,
and then runs the shutdown.  When the background task has returned it makes no
further pass; when it is in the accept loop it goes on while the shutdown
runs. -/
def Start (env : Env) (s : SshClient) : StartRun :=
  match startListenerForClient env s with
  | (s1, ev, .exited) => { client := s1, trace := ev, exit := .exited }
  | (s1, ev, .faulted msg) => { client := s1, trace := ev, exit := .panicked msg }
  | (s1, ev, .returned (some _)) =>
    shutdownPhase env.closeResult [] 0 s1
      (ev ++ [.logError "failed to establish tunnel connection", .doneSend])
  | (s1, ev, .returned none) =>
    if env.interrupt then shutdownPhase env.closeResult [] 0 s1 ev
    else { client := s1, trace := ev, exit := .waiting }
  | (s1, ev, .accepting) =>
    if env.interrupt then
      shutdownPhase env.closeResult (lateEvents env s1) env.lateBefore s1 ev
    else { client := s1, trace := ev, exit := .waiting }

end ssh

/-! ## The wording of the specification, and concrete inputs -/

namespace ssh

open config

/-- The identity string in the words of the specification,
`<secret>:<subdomain-or-name>`: the subdomain when the tunnel has one, the
name of the tunnel otherwise. -/
def identityOfSpec (c : ClientConfig) : String :=
  c.SecretKey ++ ":" ++
    (if c.Tunnel.Subdomain = "" then c.Tunnel.Name else c.Tunnel.Subdomain)

/-- A raw-TCP tunnel named "db" without subdomain. -/
def tcpConfig : ClientConfig :=
  { ServerUrl := "example.com:8000", SshUrl := "example.com:2222",
    TunnelUrl := "example.com:8000", SecretKey := "s3cr3t",
    Tunnel := { Name := "db", Subdomain := "", Port := 9000, Host := "127.0.0.1",
                Type_ := "tcp", RemotePort := 41001 },
    UseLocalHost := false, Debug := false, EnableRequestLogging := false,
    HealthCheckInterval := 3, HealthCheckMaxRetries := 10 }

/-- An HTTP tunnel with subdomain "app". -/
def httpConfig : ClientConfig :=
  { tcpConfig with
    Tunnel := { Name := "web", Subdomain := "app", Port := 3000, Host := "localhost",
                Type_ := Http, RemotePort := 0 } }

/-- An environment in which the key loads, the transport dial succeeds, the
candidate ports are 41000 and 41001, the server has 41000 occupied and would
accept 41001, and no connection arrives before the interruption signal. -/
def occupiedEnv : Env :=
  { readFile := some [45, 45], parsePrivateKey := fun b => some b, sshDialOk := true,
    randomPorts := [41000, 41001], listenOk := fun p => p == 41001,
    rounds := [], interrupt := true, closeResult := none, lateRounds := [],
    lateBefore := 0 }

/-- The same environment with an unreachable tunnel server: `ssh.Dial` fails. -/
def unreachableEnv : Env := { occupiedEnv with sshDialOk := false }

/-- An environment in which the first candidate port is bound and the listener
is then closed from outside: two successive `Accept` calls report it closed. -/
def closedEnv : Env :=
  { occupiedEnv with
    listenOk := fun _ => true,
    rounds := [{ accept := .closed, dial := none }, { accept := .closed, dial := none }] }

/-- The environment of a lost session: the first candidate port is bound, then
the connection to the tunnel server breaks, so that `Accept` reports the
listener closed and the request that `Close` sends to the server fails; one
more pass of the loop is made while the shutdown runs. -/
def lostSessionEnv : Env :=
  { closedEnv with
    closeResult := some "EOF",
    lateRounds := [{ accept := .closed, dial := none }],
    lateBefore := 2 }

/-- Ten accepted connections, numbered 1 to 10; the local dial fails for the
fourth and succeeds for the others, giving the connections 101 to 110. -/
def tenRounds : List Round :=
  (List.range 10).map fun i =>
    { accept := .conn (i + 1), dial := if i = 3 then none else some (i + 101) }

/-- The same environment without the private key file. -/
def missingKeyEnv : Env := { occupiedEnv with readFile := none }

/-- The same environment with a key file that does not parse. -/
def badKeyEnv : Env := { occupiedEnv with parsePrivateKey := fun _ => none }

/-- An environment in which the first candidate port is bound, the ten
connections of `tenRounds` arrive, and then the interruption signal; `Close`
returns nil, and the loop makes two more passes, with accept errors, before
`Start` returns, the second of them half before and half after the last log
line of the main task. -/
def servingEnv : Env :=
  { occupiedEnv with
    listenOk := fun _ => true, rounds := tenRounds,
    lateRounds := [{ accept := .closed, dial := none }, { accept := .closed, dial := none }],
    lateBefore := 3 }

/-- A remote connection that delivers "ping" in two chunks, then EOF. -/
def pingConn : Conn :=
  { id := 1, closed := false, pending := [[112, 105], [110, 103]], readFails := false,
    received := [], writeBudget := none }

/-- A local connection that delivers "pong" and then a read error, and that
takes three bytes before `Write` fails. -/
def pongConn : Conn :=
  { id := 2, closed := false, pending := [[112, 111, 110, 103]], readFails := true,
    received := [], writeBudget := some 3 }

/-! ### Observations on the answers of the environment and on the events -/

/-- The number of bytes that the connection takes of `n` bytes offered to
`Write`: all of them, or as many as `Write` still takes. -/
def Conn.accepts (dst : Conn) (n : Nat) : Nat :=
  match dst.room with
  | none => n
  | some b => min b n

/-- The bytes that were read from a connection between the state `before` and
the state `after`: the chunks of `before` that are no longer pending. -/
def Conn.readBy (before after : Conn) : List Nat :=
  (before.pending.take (before.pending.length - after.pending.length)).flatten

/-- The remote connection that the pass accepted, if any. -/
def Round.accepted (r : Round) : Option ConnId :=
  match r.accept with
  | .conn remote => some remote
  | _ => none

/-- The accepted remote connection whose local dial failed, if the pass is
one of those. -/
def Round.failedDial (r : Round) : Option ConnId :=
  match r.accept, r.dial with
  | .conn remote, none => some remote
  | _, _ => none

/-- The remote and the local connection of the pass when a connection was
accepted and the local dial succeeded. -/
def Round.relayed (r : Round) : Option (ConnId × ConnId) :=
  match r.accept, r.dial with
  | .conn remote, some loc => some (remote, loc)
  | _, _ => none

/-- The connection that the event closes, if it is a `Close` of one. -/
def Event.closedConn (e : Event) : Option ConnId :=
  match e with
  | .connClose c => some c
  | _ => none

/-- The arguments `(src, dst)` of the event when it is a `go tunnel(src, dst)`. -/
def Event.tunnelStarted (e : Event) : Option (ConnId × ConnId) :=
  match e with
  | .goTunnel src dst => some (src, dst)
  | _ => none

end ssh

open config ssh

/-! ## Auxiliary facts

### `strings.Split` -/

theorem Split_ne_nil (sep : Char) (s : List Char) : Split sep s ≠ [] := by
  induction s with
  | nil => simp [Split]
  | cons c cs ih =>
    unfold Split
    split_ifs
    · simp
    · split <;> simp

theorem Split_head (sep : Char) (s : List Char) :
    (Split sep s)[0]? = some (s.takeWhile (fun c => c != sep)) := by
  induction s with
  | nil => simp [Split]
  | cons c cs ih =>
    unfold Split
    by_cases h : c = sep
    · simp [h]
    · simp only [h, if_false]
      cases hs : Split sep cs with
      | nil => exact absurd hs (Split_ne_nil sep cs)
      | cons piece rest =>
        rw [hs] at ih
        simp at ih
        have hne : (c != sep) = true := by simp [h]
        simp [List.takeWhile, hne, ih]

theorem Split_intercalate (sep : Char) (s : List Char) :
    List.intercalate [sep] (Split sep s) = s := by
  induction s with
  | nil => simp [Split, List.intercalate]
  | cons c cs ih =>
    unfold Split
    by_cases h : c = sep
    · simp only [h, if_true]
      cases hs : Split sep cs with
      | nil => exact absurd hs (Split_ne_nil sep cs)
      | cons piece rest =>
        rw [hs] at ih
        rw [← ih]
        simp [List.intercalate, List.intersperse]
    · simp only [h, if_false]
      cases hs : Split sep cs with
      | nil => exact absurd hs (Split_ne_nil sep cs)
      | cons piece rest =>
        rw [hs] at ih
        rw [← ih]
        cases rest <;> simp [List.intercalate, List.intersperse]

/-! ### The events of the two loops -/

theorem mem_listenLoop (listenOk : Int → Bool) (ps : List Int) (l : Option Listener)
    (e : Event) (he : e ∈ (listenLoop listenOk ps l).2) : ∃ a, e = Event.listen a := by
  induction ps generalizing l with
  | nil => simp [listenLoop] at he
  | cons p ps ih =>
    unfold listenLoop at he
    by_cases hp : listenOk p = true
    · simp [hp] at he
      exact ⟨_, he⟩
    · simp [hp] at he
      rcases he with he | he
      · exact ⟨_, he⟩
      · exact ih none he

theorem mem_acceptRound (ep : String) (r : Round) (e : Event)
    (he : e ∈ acceptRound ep r) :
    e = Event.accept ∨ (∃ m, e = Event.logError m) ∨ (∃ a, e = Event.dial a) ∨
      (∃ c, e = Event.connClose c) ∨ (∃ a b, e = Event.goTunnel a b) := by
  rcases r with ⟨acc, d⟩
  cases acc <;> cases d <;> simp [acceptRound] at he <;> aesop

theorem mem_acceptLoop (ep : String) (rs : List Round) (l : Listener) (e : Event)
    (he : e ∈ (acceptLoop ep rs l).2) :
    e = Event.accept ∨ (∃ m, e = Event.logError m) ∨ (∃ a, e = Event.dial a) ∨
      (∃ c, e = Event.connClose c) ∨ (∃ a b, e = Event.goTunnel a b) := by
  induction rs generalizing l with
  | nil => simp [acceptLoop] at he
  | cons r rs ih =>
    simp only [acceptLoop, List.mem_append] at he
    rcases he with he | he
    · exact mem_acceptRound ep r e he
    · exact ih _ he

theorem acceptLoop_append (ep : String) (pre post : List Round) (l : Listener) :
    acceptLoop ep (pre ++ post) l =
      ((acceptLoop ep post (acceptLoop ep pre l).1).1,
        (acceptLoop ep pre l).2 ++ (acceptLoop ep post (acceptLoop ep pre l).1).2) := by
  induction pre generalizing l with
  | nil => simp [acceptLoop]
  | cons r pre ih => simp [acceptLoop, ih]

theorem count_accept_acceptRound (ep : String) (r : Round) :
    (acceptRound ep r).count Event.accept = 1 := by
  rcases r with ⟨acc, d⟩
  cases acc <;> cases d <;> simp [acceptRound, List.count_cons]

theorem count_accept_acceptLoop (ep : String) (rs : List Round) (l : Listener) :
    (acceptLoop ep rs l).2.count Event.accept = rs.length := by
  induction rs generalizing l with
  | nil => simp [acceptLoop]
  | cons r rs ih =>
    simp only [acceptLoop, List.count_append, count_accept_acceptRound, ih,
      List.length_cons]
    omega

/-! ### The copy loop -/

theorem copyLoop_frame (rf : Bool) (chunks : List (List Nat)) (dst : Conn) :
    (copyLoop rf chunks dst).1.id = dst.id ∧
    (copyLoop rf chunks dst).1.pending = dst.pending ∧
    (copyLoop rf chunks dst).1.closed = dst.closed := by
  induction chunks generalizing dst with
  | nil => simp [copyLoop]
  | cons chunk rest ih =>
    unfold copyLoop
    by_cases h0 : chunk.length = 0
    · simpa [h0] using ih dst
    · simp only [h0, if_false]
      cases hr : dst.room with
      | none => simpa using ih _
      | some b =>
        by_cases hb : chunk.length ≤ b
        · simpa [hb] using ih _
        · simp [hb]

theorem take_accepts_append (b : Nat) (chunk F : List Nat) (hb : chunk.length ≤ b) :
    (chunk ++ F).take (min b (chunk.length + F.length)) =
      chunk ++ F.take (min (b - chunk.length) F.length) := by
  rw [List.take_append_eq_append_take]
  have h1 : min b (chunk.length + F.length) - chunk.length =
      min (b - chunk.length) F.length := by omega
  have h2 : chunk.length ≤ min b (chunk.length + F.length) := by omega
  rw [h1, List.take_of_length_le h2]

theorem copyLoop_spec (rf : Bool) (chunks : List (List Nat)) (dst : Conn) :
    ∃ k, k ≤ chunks.length ∧ (copyLoop rf chunks dst).2.1 = chunks.drop k ∧
      (copyLoop rf chunks dst).1.received =
        dst.received ++
          (chunks.take k).flatten.take (dst.accepts (chunks.take k).flatten.length) := by
  induction chunks generalizing dst with
  | nil => exact ⟨0, by simp [copyLoop]⟩
  | cons chunk rest ih =>
    by_cases h0 : chunk.length = 0
    · obtain ⟨k, hk, hd, hr⟩ := ih dst
      have hc : chunk = [] := List.length_eq_zero.mp h0
      subst hc
      refine ⟨k + 1, by simpa using hk, by simpa [copyLoop] using hd, ?_⟩
      simpa [copyLoop] using hr
    · cases hroom : dst.room with
      | none =>
        obtain ⟨k, hk, hd, hr⟩ := ih ⟨dst.id, dst.closed, dst.pending, dst.readFails,
          dst.received ++ chunk, dst.writeBudget⟩
        have hroom2 : Conn.room ⟨dst.id, dst.closed, dst.pending, dst.readFails,
            dst.received ++ chunk, dst.writeBudget⟩ = none := by
          simpa [Conn.room] using hroom
        refine ⟨k + 1, by simpa using hk, by simpa [copyLoop, h0, hroom] using hd, ?_⟩
        simp only [copyLoop, h0, if_false, hroom, hr, List.take_succ_cons,
          List.flatten_cons]
        generalize (List.take k rest).flatten = F
        simp [Conn.accepts, hroom, hroom2]
      | some b =>
        by_cases hb : chunk.length ≤ b
        · have hopen : dst.closed = false := by
            cases hcl : dst.closed
            · rfl
            · simp [Conn.room, hcl] at hroom
              omega
          obtain ⟨k, hk, hd, hr⟩ := ih ⟨dst.id, dst.closed, dst.pending, dst.readFails,
            dst.received ++ chunk, some (b - chunk.length)⟩
          have hroom2 : Conn.room ⟨dst.id, dst.closed, dst.pending, dst.readFails,
              dst.received ++ chunk, some (b - chunk.length)⟩ = some (b - chunk.length) := by
            simp [Conn.room, hopen]
          refine ⟨k + 1, by simpa using hk, by simpa [copyLoop, h0, hroom, hb] using hd, ?_⟩
          simp only [copyLoop, h0, if_false, hroom, hb, if_true, hr, List.take_succ_cons,
            List.flatten_cons]
          generalize (List.take k rest).flatten = F
          simp only [Conn.accepts, hroom, hroom2, List.length_append, List.append_assoc,
            List.append_cancel_left_eq]
          exact (take_accepts_append b chunk F hb).symm
        · refine ⟨1, by simp, by simp [copyLoop, h0, hroom, hb], ?_⟩
          have hmin : min b chunk.length = b := by omega
          simp [copyLoop, h0, hroom, hb, Conn.accepts, hmin]

theorem copyLoop_received (rf : Bool) (chunks : List (List Nat)) (dst : Conn) :
    (copyLoop rf chunks dst).1.received =
      dst.received ++
        (chunks.take (chunks.length - (copyLoop rf chunks dst).2.1.length)).flatten.take
          (dst.accepts
            (chunks.take (chunks.length - (copyLoop rf chunks dst).2.1.length)).flatten.length) := by
  obtain ⟨k, hk, hd, hr⟩ := copyLoop_spec rf chunks dst
  have hlen : chunks.length - (copyLoop rf chunks dst).2.1.length = k := by
    rw [hd, List.length_drop]
    omega
  rw [hlen]
  exact hr

theorem copyLoop_all (rf : Bool) (chunks : List (List Nat)) (dst : Conn)
    (h : dst.room = none) :
    (copyLoop rf chunks dst).2.1 = [] ∧
    (copyLoop rf chunks dst).1.received = dst.received ++ chunks.flatten := by
  induction chunks generalizing dst with
  | nil => simp [copyLoop]
  | cons chunk rest ih =>
    unfold copyLoop
    by_cases h0 : chunk.length = 0
    · have hc : chunk = [] := List.length_eq_zero.mp h0
      simpa [h0, hc] using ih dst h
    · have h2 : Conn.room { dst with received := dst.received ++ chunk } = none := by
        simpa [Conn.room] using h
      simpa [h0, h] using ih _ h2

theorem tunnel_ping_pong :
    (tunnel pingConn pongConn).1.received = [112, 111, 110, 103] ∧
    (tunnel pingConn pongConn).2.1.pending = [] ∧
    (tunnel pongConn pingConn).1.received = [112, 105, 110] ∧
    (tunnel pongConn pingConn).2.1.pending = [] := by
  decide

/-! ### Events of two tasks in one sequence -/

theorem mem_interleave (main late : List Event) (k : Nat) (e : Event) :
    e ∈ interleave main late k ↔ e ∈ main ∨ e ∈ late := by
  unfold interleave
  simp only [List.mem_append]
  constructor
  · rintro (((h | h) | h) | h)
    · exact Or.inl (List.mem_of_mem_take h)
    · exact Or.inr (List.mem_of_mem_take h)
    · exact Or.inl (List.mem_of_mem_drop h)
    · exact Or.inr (List.mem_of_mem_drop h)
  · rintro (h | h)
    · rw [← List.take_append_drop 1 main, List.mem_append] at h
      rcases h with h | h
      · exact Or.inl (Or.inl (Or.inl h))
      · exact Or.inl (Or.inr h)
    · rw [← List.take_append_drop k late, List.mem_append] at h
      rcases h with h | h
      · exact Or.inl (Or.inl (Or.inr h))
      · exact Or.inr h

theorem count_interleave (main late : List Event) (k : Nat) (e : Event) :
    (interleave main late k).count e = main.count e + late.count e := by
  unfold interleave
  simp only [List.count_append]
  have h1 := congrArg (List.count e) (List.take_append_drop 1 main)
  have h2 := congrArg (List.count e) (List.take_append_drop k late)
  simp only [List.count_append] at h1 h2
  omega

theorem logError_mem_acceptLoop (ep : String) (rs : List Round) (l : Listener) (m : String)
    (he : Event.logError m ∈ (acceptLoop ep rs l).2) :
    m = "failed to accept connection" ∨ m = "failed to connect to local endpoint" := by
  induction rs generalizing l with
  | nil => simp [acceptLoop] at he
  | cons r rs ih =>
    simp only [acceptLoop, List.mem_append] at he
    rcases he with he | he
    · rcases r with ⟨acc, d⟩
      cases acc <;> cases d <;> simp [acceptRound] at he <;> simp [he]
    · exact ih _ he

theorem mem_lateEvents (env : Env) (s : SshClient) (e : Event) (he : e ∈ lateEvents env s) :
    e ≠ Event.listenerClose ∧ e ≠ Event.doneSend ∧
      e ≠ Event.logError "failed to stop tunnel client" := by
  unfold lateEvents at he
  cases hl : s.listener with
  | none => simp [hl] at he
  | some l =>
    simp only [hl] at he
    refine ⟨?_, ?_, ?_⟩
    · rintro rfl
      have := mem_acceptLoop _ _ _ _ he
      simp at this
    · rintro rfl
      have := mem_acceptLoop _ _ _ _ he
      simp at this
    · rintro rfl
      have := logError_mem_acceptLoop _ _ _ _ he
      simp at this

/-! ### The events and the ends of `startListenerForClient` -/

theorem mem_startListenerForClient (env : Env) (s : SshClient) (e : Event)
    (he : e ∈ (startListenerForClient env s).2.1) :
    e ≠ Event.listenerClose ∧ e ≠ Event.doneSend ∧
      (∀ a c, e = Event.sshDial a c → c.User = generateUsername s) ∧
      e ≠ Event.logError "failed to stop tunnel client" := by
  have hlisten : ∀ ps l, e ∈ (listenLoop env.listenOk ps l).2 →
      e ≠ Event.listenerClose ∧ e ≠ Event.doneSend ∧
        (∀ a c, e = Event.sshDial a c → c.User = generateUsername s) ∧
        e ≠ Event.logError "failed to stop tunnel client" := by
    intro ps l h
    obtain ⟨a, rfl⟩ := mem_listenLoop _ _ _ _ h
    simp
  have hloop : ∀ ep rs l, e ∈ (acceptLoop ep rs l).2 →
      e ≠ Event.listenerClose ∧ e ≠ Event.doneSend ∧
        (∀ a c, e = Event.sshDial a c → c.User = generateUsername s) ∧
        e ≠ Event.logError "failed to stop tunnel client" := by
    intro ep rs l h
    have hmsg : e ≠ Event.logError "failed to stop tunnel client" := by
      rintro rfl
      have := logError_mem_acceptLoop _ _ _ _ h
      simp at this
    rcases mem_acceptLoop _ _ _ _ h with rfl | ⟨m, rfl⟩ | ⟨a, rfl⟩ | ⟨c, rfl⟩ | ⟨a, b, rfl⟩ <;>
      simp [hmsg]
  unfold startListenerForClient getSshSigner at he
  cases hr : env.readFile with
  | none =>
    simp [hr] at he
    rcases he with rfl | rfl <;> simp
  | some pem =>
    cases hp : env.parsePrivateKey pem with
    | none =>
      simp [hr, hp] at he
      rcases he with rfl | rfl <;> simp
    | some signer =>
      simp only [hr, hp, List.nil_append] at he
      by_cases hd : env.sshDialOk = true
      · simp only [hd, Bool.not_true, Bool.false_eq_true, if_false] at he
        cases hs : sliceToOne env.randomPorts with
        | none =>
          simp [hs] at he
          rcases he with rfl | rfl <;> simp [sshConfig]
        | some ports =>
          simp only [hs] at he
          cases hl : (listenLoop env.listenOk ports s.listener).1 with
          | none =>
            simp only [hl, List.mem_append, List.mem_singleton] at he
            rcases he with (rfl | he) | rfl
            · simp [sshConfig]
            · exact hlisten _ _ he
            · simp
          | some l =>
            simp only [hl, List.mem_append, List.mem_singleton] at he
            rcases he with ((rfl | he) | rfl) | he
            · simp [sshConfig]
            · exact hlisten _ _ he
            · simp
            · exact hloop _ _ _ he
      · simp [hd] at he
        subst he
        simp [sshConfig]

theorem startListenerForClient_accepting (env : Env) (s : SshClient)
    (h : (startListenerForClient env s).2.2 = Background.accepting) :
    ∃ l, (startListenerForClient env s).1.listener = some l := by
  unfold startListenerForClient getSshSigner at h ⊢
  cases hr : env.readFile with
  | none => simp [hr] at h
  | some pem =>
    cases hp : env.parsePrivateKey pem with
    | none => simp [hr, hp] at h
    | some signer =>
      simp only [hr, hp] at h ⊢
      by_cases hd : env.sshDialOk = true
      · simp only [hd, Bool.not_true, Bool.false_eq_true, if_false] at h ⊢
        cases hs : sliceToOne env.randomPorts with
        | none => simp [hs] at h
        | some ports =>
          simp only [hs] at h ⊢
          cases hl : (listenLoop env.listenOk ports s.listener).1 with
          | none => simp [hl] at h
          | some l => simp [hl]
      · simp [hd] at h

theorem startListenerForClient_returned (env : Env) (s : SshClient) :
    ((startListenerForClient env s).2.2 = Background.returned (some "ssh: dial failed") ↔
      (∃ signer, (getSshSigner env).2 = some signer) ∧ env.sshDialOk = false) ∧
    (∀ err, (startListenerForClient env s).2.2 = Background.returned err →
      err = some "ssh: dial failed" ∧ (startListenerForClient env s).1 = s) := by
  unfold startListenerForClient getSshSigner
  cases hr : env.readFile with
  | none => simp [hr]
  | some pem =>
    cases hp : env.parsePrivateKey pem with
    | none => simp [hr, hp]
    | some signer =>
      simp only [hr, hp]
      by_cases hd : env.sshDialOk = true
      · simp only [hd, Bool.not_true, Bool.false_eq_true, if_false]
        cases hs : sliceToOne env.randomPorts with
        | none => simp
        | some ports =>
          simp only
          cases hl : (listenLoop env.listenOk ports s.listener).1 <;> simp
      · simp at hd
        simp [hd]

theorem startListenerForClient_exited (env : Env) (s : SshClient) :
    (startListenerForClient env s).2.2 = Background.exited ↔
      (getSshSigner env).2 = none ∨
        ((∃ signer, (getSshSigner env).2 = some signer) ∧ env.sshDialOk = true ∧
          ∃ p ps, env.randomPorts = p :: ps ∧ env.listenOk p = false) := by
  unfold startListenerForClient getSshSigner
  cases hr : env.readFile with
  | none => simp [hr]
  | some pem =>
    cases hp : env.parsePrivateKey pem with
    | none => simp [hr, hp]
    | some signer =>
      simp only [hr, hp]
      by_cases hd : env.sshDialOk = true
      · simp only [hd, Bool.not_true, Bool.false_eq_true, if_false]
        cases hps : env.randomPorts with
        | nil => simp [sliceToOne]
        | cons p ps =>
          simp only [sliceToOne]
          by_cases hok : env.listenOk p = true
          · simp [listenLoop, hok]
          · simp at hok
            simp [listenLoop, hok]
      · simp at hd
        simp [hd]

/-! ## ssh.go: negotiation of the remote listener (C1) -/

/-- C1 (the code at the failing input): with the candidates 41000 and 41001,
41000 occupied and 41001 free, `startListenerForClient` makes one bind
attempt, on 41000, keeps no listener and ends the process through `log.Fatal`;
41001 is never attempted, although the loop of lines 81-86 run on both
candidates would have bound it. -/
theorem startListenerForClient_single_attempt :
    occupiedEnv.randomPorts = [41000, 41001] ∧
    occupiedEnv.listenOk 41000 = false ∧ occupiedEnv.listenOk 41001 = true ∧
    (startListenerForClient occupiedEnv (New tcpConfig)).2.2 = Background.exited ∧
    (startListenerForClient occupiedEnv (New tcpConfig)).1.listener = none ∧
    (startListenerForClient occupiedEnv (New tcpConfig)).2.1.filter
        (fun e => e matches Event.listen _ | Event.logFatal _) =
      [Event.listen "localhost:41000",
       Event.logFatal "failed to listen on remote endpoint"] ∧
    (listenLoop occupiedEnv.listenOk occupiedEnv.randomPorts none).1 =
      some { addr := "localhost:41001", closed := false } := by
  decide

/-! ## ssh.go: the accept loop (C2, C3) -/

/-- C2 (counterexample): when the first `Accept` reports the listener closed,
the loop logs, calls `Accept` a second time and, after that one fails in the
same way, is again inside the loop: `startListenerForClient` has not
returned.  (The first three events are those of the setup: the transport dial,
the bind and the log line.) -/
theorem acceptLoop_survives_close :
    closedEnv.rounds.map Round.accept = [AcceptResult.closed, AcceptResult.closed] ∧
    (startListenerForClient closedEnv (New tcpConfig)).2.2 = Background.accepting ∧
    (startListenerForClient closedEnv (New tcpConfig)).2.1.drop 3 =
      [Event.accept, Event.logError "failed to accept connection",
       Event.accept, Event.logError "failed to accept connection"] := by
  decide

/-- C2 (amended): for every accept error, whether or not it says that the
listener is closed, the loop logs "failed to accept connection" and goes on
with the passes that follow; the loop calls `Accept` once for every answer the
environment gives and has no stopped state. -/
theorem acceptLoop_continues (ep : String) (pre post : List Round) (r : Round)
    (l : Listener) (herr : r.accept = AcceptResult.closed ∨ r.accept = AcceptResult.failed) :
    (acceptLoop ep (pre ++ r :: post) l).2 =
      (acceptLoop ep pre l).2 ++
        [Event.accept, Event.logError "failed to accept connection"] ++
        (acceptLoop ep post ((acceptLoop ep pre l).1.afterAccept r.accept)).2 ∧
    (acceptLoop ep (pre ++ r :: post) l).2.count Event.accept =
      pre.length + 1 + post.length := by
  constructor
  · rw [acceptLoop_append]
    rcases r with ⟨acc, d⟩
    rcases herr with h | h <;> simp at h <;> subst h <;>
      simp [acceptLoop, acceptRound]
  · rw [count_accept_acceptLoop]
    simp
    omega

/-- C2 (witness): a closed-listener error between an accepted connection and
another accepted connection. -/
theorem acceptLoop_continues_witness :
    (acceptLoop "127.0.0.1:9000"
        ([{ accept := .conn 1, dial := some 2 }] ++
          { accept := .closed, dial := none } :: [{ accept := .conn 3, dial := some 4 }])
        { addr := "localhost:41000", closed := false }).2.count Event.accept = 1 + 1 + 1 :=
  (acceptLoop_continues "127.0.0.1:9000" [{ accept := .conn 1, dial := some 2 }]
    [{ accept := .conn 3, dial := some 4 }] { accept := .closed, dial := none }
    { addr := "localhost:41000", closed := false } (Or.inl rfl)).2

/-- C3: a pass in which a connection is accepted and the local dial fails
logs, closes the accepted connection, starts no copy task and sends nothing on
`done`; over any sequence of passes with `n` accepted connections of which `k`
local dials fail, the connections closed by the loop are exactly those `k`,
the copy tasks started are the two of each of the `n - k` other accepted
connections, and `Accept` is called in every pass. -/
theorem acceptLoop_dial_failures (ep : String) (rs : List Round) (l : Listener)
    (n k : Nat) (hn : (rs.filterMap Round.accepted).length = n)
    (hk : (rs.filterMap Round.failedDial).length = k) :
    (∀ remote : ConnId,
      acceptRound ep { accept := .conn remote, dial := none } =
        [Event.accept, Event.dial ep,
         Event.logError "failed to connect to local endpoint",
         Event.connClose remote]) ∧
    (acceptLoop ep rs l).2.filterMap Event.closedConn = rs.filterMap Round.failedDial ∧
    (acceptLoop ep rs l).2.filterMap Event.tunnelStarted =
      (rs.filterMap Round.relayed).flatMap (fun p => [(p.1, p.2), (p.2, p.1)]) ∧
    (rs.filterMap Round.relayed).length = n - k ∧
    Event.doneSend ∉ (acceptLoop ep rs l).2 ∧
    (acceptLoop ep rs l).2.count Event.accept = rs.length := by
  refine ⟨fun _ => rfl, ?_, ?_, ?_, ?_, count_accept_acceptLoop ep rs l⟩
  · clear hn hk
    induction rs generalizing l with
    | nil => simp [acceptLoop]
    | cons r rs ih =>
      rcases r with ⟨acc, d⟩
      cases acc <;> cases d <;>
        simp [acceptLoop, acceptRound, List.filterMap_append, List.filterMap_cons,
          Event.closedConn, Round.failedDial, ih]
  · clear hn hk
    induction rs generalizing l with
    | nil => simp [acceptLoop]
    | cons r rs ih =>
      rcases r with ⟨acc, d⟩
      cases acc <;> cases d <;>
        simp [acceptLoop, acceptRound, List.filterMap_append, List.filterMap_cons,
          Event.tunnelStarted, Round.relayed, ih]
  · subst hn hk
    have key : (rs.filterMap Round.relayed).length + (rs.filterMap Round.failedDial).length =
        (rs.filterMap Round.accepted).length := by
      induction rs with
      | nil => simp
      | cons r rs ih =>
        rcases r with ⟨acc, d⟩
        cases acc <;> cases d <;>
          simp [List.filterMap_cons, Round.relayed, Round.failedDial, Round.accepted] <;>
          omega
    omega
  · intro hmem
    have := mem_acceptLoop ep rs l _ hmem
    simp at this

/-- C3 (witness): ten accepted connections, one failing local dial: the fourth
connection is closed and nine relay pairs are started. -/
theorem acceptLoop_dial_failures_witness :
    (tenRounds.filterMap Round.accepted).length = 10 ∧
    (tenRounds.filterMap Round.failedDial).length = 1 ∧
    (acceptLoop "127.0.0.1:9000" tenRounds
        { addr := "localhost:41000", closed := false }).2.filterMap Event.closedConn = [4] ∧
    (tenRounds.filterMap Round.relayed).length = 10 - 1 :=
  have h := acceptLoop_dial_failures "127.0.0.1:9000" tenRounds
    { addr := "localhost:41000", closed := false } 10 1 (by decide) (by decide)
  ⟨by decide, by decide, h.2.1.trans (by decide), h.2.2.2.1⟩

/-! ## ssh.go: the copy tasks (C4, C5) -/

/-- C4 (counterexample): the task `tunnel(pongConn, pingConn)` reads the four
bytes of "ping" from `pingConn`, and `pongConn` takes three bytes before its
`Write` fails: three bytes are forwarded, the fourth byte read is dropped. -/
theorem tunnel_drops_after_failed_write :
    pingConn.closed = false ∧ pongConn.closed = false ∧
    Conn.readBy pingConn (tunnel pongConn pingConn).2.1 = [112, 105, 110, 103] ∧
    (tunnel pongConn pingConn).1.received = [112, 105, 110] ∧
    (tunnel pongConn pingConn).1.received ≠
      Conn.readBy pingConn (tunnel pongConn pingConn).2.1 := by
  decide

/-- C4 (amended): for every accepted remote connection whose local dial
succeeds the loop starts exactly the two tasks `tunnel(remote, local)` and
`tunnel(local, remote)`; on the two open connections, `tunnel(src, dst)`
appends to what `src` has received the bytes it reads from `dst`, unmodified
and in order, up to the byte at which a `Write` fails, and writes nothing into
`dst`; when no `Write` fails it reads the whole stream of `dst` and forwards
all of it.  So the first task carries local-to-remote and the second
remote-to-local. -/
theorem tunnel_directions (ep : String) (remoteConn localConn : Conn)
    (hremote : remoteConn.closed = false) (hlocal : localConn.closed = false) :
    (acceptRound ep { accept := .conn remoteConn.id, dial := some localConn.id }).filterMap
        Event.tunnelStarted =
      [(remoteConn.id, localConn.id), (localConn.id, remoteConn.id)] ∧
    ((tunnel remoteConn localConn).1.received =
        remoteConn.received ++
          (Conn.readBy localConn (tunnel remoteConn localConn).2.1).take
            (remoteConn.accepts
              (Conn.readBy localConn (tunnel remoteConn localConn).2.1).length) ∧
      (tunnel remoteConn localConn).2.1.received = localConn.received ∧
      (remoteConn.writeBudget = none →
        Conn.readBy localConn (tunnel remoteConn localConn).2.1 =
          localConn.pending.flatten ∧
        (tunnel remoteConn localConn).1.received =
          remoteConn.received ++ localConn.pending.flatten)) ∧
    ((tunnel localConn remoteConn).1.received =
        localConn.received ++
          (Conn.readBy remoteConn (tunnel localConn remoteConn).2.1).take
            (localConn.accepts
              (Conn.readBy remoteConn (tunnel localConn remoteConn).2.1).length) ∧
      (tunnel localConn remoteConn).2.1.received = remoteConn.received ∧
      (localConn.writeBudget = none →
        Conn.readBy remoteConn (tunnel localConn remoteConn).2.1 =
          remoteConn.pending.flatten ∧
        (tunnel localConn remoteConn).1.received =
          localConn.received ++ remoteConn.pending.flatten)) := by
  have key : ∀ src dst : Conn, src.closed = false → dst.closed = false →
      (tunnel src dst).1.received =
        src.received ++
          (Conn.readBy dst (tunnel src dst).2.1).take
            (src.accepts (Conn.readBy dst (tunnel src dst).2.1).length) ∧
      (tunnel src dst).2.1.received = dst.received ∧
      (src.writeBudget = none →
        Conn.readBy dst (tunnel src dst).2.1 = dst.pending.flatten ∧
        (tunnel src dst).1.received = src.received ++ dst.pending.flatten) := by
    intro src dst hs hd
    refine ⟨?_, ?_, ?_⟩
    · simpa [tunnel, Copy, hd, Conn.Close, Conn.readBy] using
        copyLoop_received dst.readFails dst.pending src
    · simp [tunnel, Copy, hd, Conn.Close]
    · intro hb
      have hroom : src.room = none := by simp [Conn.room, hs, hb]
      have hall := copyLoop_all dst.readFails dst.pending src hroom
      simp [tunnel, Copy, hd, Conn.Close, Conn.readBy, hall.1, hall.2]
  exact ⟨by simp [acceptRound, Event.tunnelStarted], key _ _ hremote hlocal,
    key _ _ hlocal hremote⟩

/-- C4 (witness): the two tasks on `pingConn` (remote) and `pongConn` (local):
"pong" reaches the remote connection whole, and of "ping" the local
connection gets the three bytes it takes. -/
theorem tunnel_directions_witness :
    pingConn.closed = false ∧ pongConn.closed = false ∧
    (tunnel pingConn pongConn).1.received =
      pingConn.received ++
        (Conn.readBy pongConn (tunnel pingConn pongConn).2.1).take
          (pingConn.accepts (Conn.readBy pongConn (tunnel pingConn pongConn).2.1).length) ∧
    (tunnel pingConn pongConn).1.received = [112, 111, 110, 103] :=
  ⟨by decide, by decide,
    (tunnel_directions "127.0.0.1:9000" pingConn pongConn (by decide) (by decide)).2.1.1,
    by decide⟩

/-- C5: `tunnel` closes both connections of the pair before it returns,
whatever the data, the end of the stream (EOF or read error) and the point at
which a `Write` fails; so after either of the two tasks of a relay pair both
ends are closed. -/
theorem tunnel_closes_both (remoteConn localConn : Conn) :
    ((tunnel remoteConn localConn).1.closed = true ∧
      (tunnel remoteConn localConn).2.1.closed = true ∧
      (tunnel remoteConn localConn).1.id = remoteConn.id ∧
      (tunnel remoteConn localConn).2.1.id = localConn.id ∧
      (tunnel remoteConn localConn).2.2 =
        [Event.connClose localConn.id, Event.connClose remoteConn.id]) ∧
    ((tunnel localConn remoteConn).1.closed = true ∧
      (tunnel localConn remoteConn).2.1.closed = true ∧
      (tunnel localConn remoteConn).1.id = localConn.id ∧
      (tunnel localConn remoteConn).2.1.id = remoteConn.id ∧
      (tunnel localConn remoteConn).2.2 =
        [Event.connClose remoteConn.id, Event.connClose localConn.id]) := by
  have key : ∀ src dst : Conn,
      (tunnel src dst).1.closed = true ∧ (tunnel src dst).2.1.closed = true ∧
      (tunnel src dst).1.id = src.id ∧ (tunnel src dst).2.1.id = dst.id ∧
      (tunnel src dst).2.2 = [Event.connClose dst.id, Event.connClose src.id] := by
    intro src dst
    unfold tunnel Copy
    by_cases hd : dst.closed = true <;> simp [hd, Conn.Close, copyLoop_frame]
  exact ⟨key _ _, key _ _⟩

/-! ## ssh.go: shutdown (C6, C7) -/

/-- C6 (counterexample): the session to the tunnel server is lost while the
listener is bound, so that the listener is already closed when the signal
arrives, and the `Close` of the shutdown routine returns an error: `Close` is
called once, `Shutdown` returns its error and `Start` logs "failed to stop
tunnel client".  The close of the already closed listener is reported as an
error.  (The first seven events are those of the background task; the accept
error after `Close` is the pass that the loop makes while the shutdown
runs.) -/
theorem Start_reports_close_error :
    (startListenerForClient lostSessionEnv (New tcpConfig)).2.2 = Background.accepting ∧
    (startListenerForClient lostSessionEnv (New tcpConfig)).1.listener =
      some { addr := "localhost:41000", closed := true } ∧
    lostSessionEnv.interrupt = true ∧
    lostSessionEnv.closeResult = some "EOF" ∧
    (Start lostSessionEnv (New tcpConfig)).exit = StartExit.returned ∧
    (Start lostSessionEnv (New tcpConfig)).trace.count Event.listenerClose = 1 ∧
    (Start lostSessionEnv (New tcpConfig)).trace.drop 7 =
      [Event.listenerClose, Event.accept, Event.logError "failed to accept connection",
       Event.logError "failed to stop tunnel client"] := by
  decide

/-- C6 (amended): for every run of `Start` in which the accept loop is running
on a bound listener when the interruption signal arrives, `Start` returns
normally and `Close` is called on the listener exactly once, as the first
event after those that the background task made before the signal, and leaves
the listener closed; the value that `Close` returns is the value that
`Shutdown` returns; `Shutdown` logs "stopping tunnel client server" when it is
nil, and `Start` logs "failed to stop tunnel client" exactly when it is an
error, whatever the state of the listener was.  The passes that the accept
loop makes after `Close` are part of the events, around that last log line. -/
theorem Start_interrupt_closes_once (env : Env) (s : SshClient)
    (hbound : (startListenerForClient env s).2.2 = Background.accepting)
    (hint : env.interrupt = true) :
    ∃ l, (startListenerForClient env s).1.listener = some l ∧
      (Start env s).exit = StartExit.returned ∧
      (Start env s).trace =
        (startListenerForClient env s).2.1 ++ [Event.listenerClose] ++
          (lateEvents env (startListenerForClient env s).1).take env.lateBefore ++
          [if env.closeResult.isSome then Event.logError "failed to stop tunnel client"
           else Event.logInfo "stopping tunnel client server"] ++
          (lateEvents env (startListenerForClient env s).1).drop env.lateBefore ∧
      (Start env s).trace.count Event.listenerClose = 1 ∧
      (Event.logError "failed to stop tunnel client" ∈ (Start env s).trace ↔
        env.closeResult ≠ none) ∧
      (∃ c ev, Shutdown env.closeResult (startListenerForClient env s).1 =
        Except.ok (c, env.closeResult, ev)) ∧
      (Start env s).client.listener = some { l with closed := true } := by
  obtain ⟨l, hl⟩ := startListenerForClient_accepting env s hbound
  have hpre := mem_startListenerForClient env s
  have hlate := mem_lateEvents env (startListenerForClient env s).1
  refine ⟨l, hl, ?_⟩
  unfold Start
  generalize startListenerForClient env s = r at hbound hl hpre hlate
  rcases r with ⟨s1, ev, bg⟩
  simp only at hbound hl hpre hlate
  subst hbound
  have hc1 : ev.count Event.listenerClose = 0 :=
    List.count_eq_zero.mpr fun h => (hpre _ h).1 rfl
  have hc2 : (lateEvents env s1).count Event.listenerClose = 0 :=
    List.count_eq_zero.mpr fun h => (hlate _ h).1 rfl
  have hm1 : Event.logError "failed to stop tunnel client" ∉ ev :=
    fun h => (hpre _ h).2.2.2 rfl
  have hm2 : Event.logError "failed to stop tunnel client" ∉ lateEvents env s1 :=
    fun h => (hlate _ h).2.2 rfl
  cases hcr : env.closeResult with
  | none =>
    simp only [hint, if_true, shutdownPhase, Shutdown, hl, Listener.Close]
    refine ⟨?_, ?_, ?_, ?_, ?_, ?_⟩
    · simp
    · simp [interleave]
    · simp [List.count_append, count_interleave, hc1, hc2, List.count_cons]
    · simp [mem_interleave, hm1, hm2]
    · simp
    · simp
  | some err =>
    simp only [hint, if_true, shutdownPhase, Shutdown, hl, Listener.Close]
    refine ⟨?_, ?_, ?_, ?_, ?_, ?_⟩
    · simp
    · simp [interleave]
    · simp [List.count_append, count_interleave, hc1, hc2, List.count_cons]
    · simp [mem_interleave, hm1, hm2]
    · simp
    · simp

/-- C6 (witness): in `servingEnv` the signal arrives after ten accepted
connections, while the listener on port 41000 is bound and open; `Close`
returns nil and two more passes of the loop are made before `Start`
returns. -/
theorem Start_interrupt_closes_once_witness :
    (startListenerForClient servingEnv (New tcpConfig)).2.2 = Background.accepting ∧
    servingEnv.interrupt = true ∧
    (Start servingEnv (New tcpConfig)).trace.drop 43 =
      [Event.listenerClose, Event.accept, Event.logError "failed to accept connection",
       Event.accept, Event.logInfo "stopping tunnel client server",
       Event.logError "failed to accept connection"] ∧
    (Start servingEnv (New tcpConfig)).trace.count Event.listenerClose = 1 :=
  have h := Start_interrupt_closes_once servingEnv (New tcpConfig) (by decide) (by decide)
  ⟨by decide, by decide, by decide, h.choose_spec.2.2.2.1⟩

/-- C7 (the code at the failing input): when the transport dial fails on a
client made by `New`, the listener is still nil, the background task logs and
sends on `done`, and the shutdown routine then faults on the nil listener:
`Start` does not return, the process ends in a nil-pointer panic. -/
theorem Start_dial_failure_faults :
    unreachableEnv.sshDialOk = false ∧
    (New tcpConfig).listener = none ∧
    (startListenerForClient unreachableEnv (New tcpConfig)).2.2 =
      Background.returned (some "ssh: dial failed") ∧
    (Start unreachableEnv (New tcpConfig)).client.listener = none ∧
    (Start unreachableEnv (New tcpConfig)).trace.drop 1 =
      [Event.logError "failed to establish tunnel connection", Event.doneSend] ∧
    (Start unreachableEnv (New tcpConfig)).exit =
      StartExit.panicked "invalid memory address or nil pointer dereference" ∧
    (Start unreachableEnv (New tcpConfig)).exit ≠ StartExit.returned := by
  decide

/-! ## ssh.go: which errors reach the lifecycle controller (C8) -/

/-- C8 (counterexample): with the key file absent, with a key that does not
parse, and with the remote port refused, the process ends through `log.Fatal`:
nothing is sent on `done` and the shutdown routine does not run. -/
theorem Start_fatal_not_signalled :
    ((Start missingKeyEnv (New tcpConfig)).exit = StartExit.exited ∧
      Event.doneSend ∉ (Start missingKeyEnv (New tcpConfig)).trace ∧
      Event.listenerClose ∉ (Start missingKeyEnv (New tcpConfig)).trace) ∧
    ((Start badKeyEnv (New tcpConfig)).exit = StartExit.exited ∧
      Event.doneSend ∉ (Start badKeyEnv (New tcpConfig)).trace ∧
      Event.listenerClose ∉ (Start badKeyEnv (New tcpConfig)).trace) ∧
    ((Start occupiedEnv (New tcpConfig)).exit = StartExit.exited ∧
      Event.doneSend ∉ (Start occupiedEnv (New tcpConfig)).trace ∧
      Event.listenerClose ∉ (Start occupiedEnv (New tcpConfig)).trace) := by
  decide

/-- C8 (amended): in every run of `Start`, something is sent on `done` exactly
when the credentials load and the transport dial fails, and `Start` then goes
on into the shutdown routine; an absent or unparseable key and a refused
remote port end the process through `log.Fatal` instead (and the process ends
that way in no other case), with no send on `done` and no call of the shutdown
routine; no pass of the accept loop (accept error, local-dial failure) and no
copy task sends on `done`. -/
theorem Start_signalled_iff (env : Env) (s : SshClient) (ep : String) (rs : List Round)
    (l : Listener) (src dst : Conn) :
    (Event.doneSend ∈ (Start env s).trace ↔
      (∃ signer, (getSshSigner env).2 = some signer) ∧ env.sshDialOk = false) ∧
    (Event.doneSend ∈ (Start env s).trace →
      Start env s =
        shutdownPhase env.closeResult [] 0 s ((startListenerForClient env s).2.1 ++
          [Event.logError "failed to establish tunnel connection", Event.doneSend])) ∧
    ((Start env s).exit = StartExit.exited ↔
      (getSshSigner env).2 = none ∨
        ((∃ signer, (getSshSigner env).2 = some signer) ∧ env.sshDialOk = true ∧
          ∃ p ps, env.randomPorts = p :: ps ∧ env.listenOk p = false)) ∧
    ((Start env s).exit = StartExit.exited →
      Event.doneSend ∉ (Start env s).trace ∧ Event.listenerClose ∉ (Start env s).trace) ∧
    Event.doneSend ∉ (acceptLoop ep rs l).2 ∧
    Event.doneSend ∉ (tunnel src dst).2.2 := by
  have hret := startListenerForClient_returned env s
  have hex := startListenerForClient_exited env s
  have hmem := mem_startListenerForClient env s
  have hloop : Event.doneSend ∉ (acceptLoop ep rs l).2 := by
    intro h
    have := mem_acceptLoop ep rs l _ h
    simp at this
  have hshut : ∀ (late : List Event) (k : Nat) (c : SshClient) (ev : List Event),
      Event.doneSend ∉ late →
      (shutdownPhase env.closeResult late k c ev).exit ≠ StartExit.exited ∧
      (Event.doneSend ∈ (shutdownPhase env.closeResult late k c ev).trace ↔
        Event.doneSend ∈ ev) := by
    intro late k c ev hlate
    cases hc : c.listener with
    | none => simp [shutdownPhase, Shutdown, hc]
    | some lis =>
      cases hcr : env.closeResult <;>
        simp [shutdownPhase, Shutdown, hc, Listener.Close, mem_interleave, hlate]
  have hnil : Event.doneSend ∉ ([] : List Event) := by simp
  unfold Start
  generalize startListenerForClient env s = r at hret hex hmem
  rcases r with ⟨s1, ev, bg⟩
  have hno : Event.doneSend ∉ ev := fun h => (hmem _ h).2.1 rfl
  have hnc : Event.listenerClose ∉ ev := fun h => (hmem _ h).1 rfl
  have hlt : Event.doneSend ∉ lateEvents env s1 :=
    fun h => (mem_lateEvents env s1 _ h).2.1 rfl
  simp only at hret hex
  refine ⟨?_, ?_, ?_, ?_, hloop, by simp [tunnel]⟩
  · rw [← hret.1]
    cases bg with
    | returned err =>
      cases err with
      | none => exact absurd (hret.2 none rfl).1 (by simp)
      | some e =>
        have := (hret.2 (some e) rfl).1
        simp [(hshut [] 0 _ _ hnil).2, this]
    | exited => simp [hno]
    | faulted msg => simp [hno]
    | accepting =>
      by_cases hi : env.interrupt = true <;> simp [hi, (hshut _ _ _ _ hlt).2, hno]
  · cases bg with
    | returned err =>
      cases err with
      | none => exact absurd (hret.2 none rfl).1 (by simp)
      | some e =>
        have h1 := (hret.2 (some e) rfl).2
        simp only at h1
        subst h1
        simp
    | exited => simp [hno]
    | faulted msg => simp [hno]
    | accepting =>
      by_cases hi : env.interrupt = true <;> simp [hi, (hshut _ _ _ _ hlt).2, hno]
  · rw [← hex]
    cases bg with
    | returned err =>
      cases err with
      | none => exact absurd (hret.2 none rfl).1 (by simp)
      | some e => simp [(hshut [] 0 _ _ hnil).1]
    | exited => simp
    | faulted msg => simp
    | accepting =>
      by_cases hi : env.interrupt = true <;> simp [hi, (hshut _ _ _ _ hlt).1]
  · cases bg with
    | returned err =>
      cases err with
      | none => exact absurd (hret.2 none rfl).1 (by simp)
      | some e => simp [(hshut [] 0 _ _ hnil).1]
    | exited => simp [hno, hnc]
    | faulted msg => simp
    | accepting =>
      by_cases hi : env.interrupt = true <;> simp [hi, (hshut _ _ _ _ hlt).1]

/-! ## ssh.go: the transport-layer username (C9) -/

/-- C9 (counterexample): for the tunnel named "db" without subdomain and the
secret "s3cr3t", `generateUsername` is "s3cr3t:", not the
`<secret>:<subdomain-or-name>` of the specification, "s3cr3t:db". -/
theorem generateUsername_ignores_name :
    generateUsername (New tcpConfig) = "s3cr3t:" ∧
    identityOfSpec tcpConfig = "s3cr3t:db" ∧
    generateUsername (New tcpConfig) ≠ identityOfSpec tcpConfig := by
  decide

/-- C9 (amended): for every client, `generateUsername` is the shared secret,
a single ':', then the subdomain of the tunnel (also when that is empty; the
name of the tunnel is not used), it agrees with `<secret>:<subdomain-or-name>`
whenever the tunnel has a subdomain, and it is the `User` of every SSH client
configuration that `startListenerForClient` dials with. -/
theorem generateUsername_eq (env : Env) (s : SshClient) (addr : String)
    (cfg : SshClientConfig)
    (hdial : Event.sshDial addr cfg ∈ (startListenerForClient env s).2.1) :
    generateUsername s = s.config.SecretKey ++ ":" ++ s.config.Tunnel.Subdomain ∧
    (generateUsername s).data =
      s.config.SecretKey.data ++ ':' :: s.config.Tunnel.Subdomain.data ∧
    (s.config.Tunnel.Subdomain ≠ "" → generateUsername s = identityOfSpec s.config) ∧
    cfg.User = generateUsername s := by
  refine ⟨rfl, ?_, ?_, ?_⟩
  · simp [generateUsername]
  · intro hsub
    simp [generateUsername, identityOfSpec, hsub]
  · exact (mem_startListenerForClient env s _ hdial).2.2.1 addr cfg rfl

/-- C9 (witness): the run in `occupiedEnv` of the client for `httpConfig`
dials with the user "s3cr3t:app". -/
theorem generateUsername_eq_witness :
    Event.sshDial "example.com:2222"
        { User := "s3cr3t:app", Auth := [[45, 45]], InsecureIgnoreHostKey := true } ∈
      (startListenerForClient occupiedEnv (New httpConfig)).2.1 ∧
    (generateUsername (New httpConfig)).data = "s3cr3t:app".data :=
  have h : Event.sshDial "example.com:2222"
        { User := "s3cr3t:app", Auth := [[45, 45]], InsecureIgnoreHostKey := true } ∈
      (startListenerForClient occupiedEnv (New httpConfig)).2.1 := by decide
  ⟨h, (generateUsername_eq occupiedEnv (New httpConfig) _ _ h).2.1.trans (by decide)⟩

/-! ## config.go: the tunnel address (C10) -/

/-- C10 (counterexample): for the HTTP tunnel with subdomain "app" on the
tunnel host "example.com:8000", `GetTunnelAddr` returns
"https://app.example.com:8000", which is not `<subdomain>.<tunnelHost>`. -/
theorem GetTunnelAddr_http_has_protocol :
    httpConfig.Tunnel.Type_ = Http ∧
    httpConfig.GetTunnelAddr = some "https://app.example.com:8000" ∧
    httpConfig.GetTunnelAddr ≠
      some (httpConfig.Tunnel.Subdomain ++ "." ++ httpConfig.TunnelUrl) := by
  decide

/-- C10 (amended): for every `ClientConfig`, `GetTunnelAddr` returns a value
(the index `split[0]` is in range for every `TunnelUrl`); for the HTTP type it
is the protocol ("http" when `UseLocalHost`, else "https"), "://", the
subdomain, ".", `TunnelUrl`; for every other type it is the part of
`TunnelUrl` before its first ':', then ":", then the decimal `RemotePort`. -/
theorem GetTunnelAddr_eq (c : ClientConfig) :
    c.GetTunnelAddr =
      some (if c.Tunnel.Type_ = Http then
              (if c.UseLocalHost then "http" else "https") ++ "://" ++
                c.Tunnel.Subdomain ++ "." ++ c.TunnelUrl
            else
              String.mk (c.TunnelUrl.data.takeWhile (fun ch => ch != ':')) ++ ":" ++
                toString c.Tunnel.RemotePort) := by
  unfold ClientConfig.GetTunnelAddr
  by_cases h : c.Tunnel.Type_ = Http
  · simp only [h, if_true, ClientConfig.GetHttpTunnelAddr]
    cases c.UseLocalHost <;> simp
  · simp only [h, if_false, ClientConfig.GetTcpTunnelAddr, Split_head, Sprint]

end Portr
